import Mathlib

/-!
Shallow embedding of `rl_utils/CameraEnviroment.py` (class `CameraControlEnv`)
from the drone_frontal_rl repository.

Modelling choices:
* Python floats are modelled as `ℚ` (every constant in the reward/error
  computation is exactly representable).
* The numpy global random generator is modelled as a stream of naturals
  together with a cursor; `np.random.randint(lo, hi)` consuming one draw `d`
  is modelled as `lo + d % (hi - lo)`.
* Images are total functions `Fin 64 → Fin 64 → Fin 3 → ℤ`; the dataset
  (`self.persons`) is a partial lookup table, `none` modelling a Python
  `KeyError`.
* Failures (`assert False`, indexing `[-1]` into an empty list, missing
  dataset key) are modelled with `Except StepErr`.
-/

namespace CameraEnv

/-- A 64×64 RGB image with integer-valued channels (post mean-subtraction
the values are signed, hence `ℤ`). -/
def Obs : Type := Fin 64 → Fin 64 → Fin 3 → ℤ

instance : Inhabited Obs := ⟨fun _ _ _ => 0⟩

/-- The dataset: person id ↦ (tilt angle, pan angle) ↦
(network-input image, render image); `none` models a missing key. -/
def Persons : Type := ℕ → ℤ × ℤ → Option (Obs × Obs)

/-- The grid `self.tilts = [-60, -30, -15, 0, +15, +30, +60]`. -/
def tilts : List ℤ := [-60, -30, -15, 0, 15, 30, 60]

/-- The grid `self.pans = [-90, -75, -60, -45, -30, -15, 0, +15, +30, +45, +60, +75, +90]`. -/
def pans : List ℤ := [-90, -75, -60, -45, -30, -15, 0, 15, 30, 45, 60, 75, 90]

/-- The value `np.max(np.abs(l))` for a list of integers (as a natural number). -/
def maxAbs (l : List ℤ) : ℕ := (l.map Int.natAbs).foldr max 0

/-- The constant `self.mean_vector = np.asarray([109, 114, 131])`. -/
def mean_vector : Fin 3 → ℤ := ![109, 114, 131]

/-- Numpy broadcast `image - self.mean_vector` (per-channel subtraction). -/
def subMean (o : Obs) : Obs := fun i j c => o i j c - mean_vector c

/-- The mutable state of a `CameraControlEnv` instance (fields of `self`
relevant to `reset`/`step`; the Python statistics lists named `*_error`
actually store angles, the names are kept from the source). -/
structure EnvState where
  testing : Bool
  current_tilt : ℤ
  current_pan : ℤ
  current_person : ℕ
  error_memory : List ℚ
  epoch_counter : ℤ
  iteration_counter : ℕ
  init_pan_error : List ℤ
  init_tilt_error : List ℤ
  final_pan_error : List ℤ
  final_tilt_error : List ℤ
  observation : Obs
  render_observation : Obs
  current_state_text : String
  action_text : String

instance : Inhabited EnvState :=
  ⟨⟨false, 0, 0, 0, [], 0, 0, [], [], [], [], default, default, "", ""⟩⟩

/-- The display string `str(tilt) + '/' + str(pan)`. -/
def stateText (tilt pan : ℤ) : String := toString tilt ++ "/" ++ toString pan

/-- Constructor `__init__(dataset, testing, interactive)`: the freshly constructed state.
`d0` is the single random draw used to pick the initial person. -/
def initState (testing : Bool) (d0 : ℕ) : EnvState :=
  let current_person := if testing then 20 + d0 % 10 else d0 % 20
  { testing := testing
    current_tilt := 0
    current_pan := 0
    current_person := current_person
    error_memory := []
    epoch_counter := -1
    iteration_counter := 0
    init_pan_error := []
    init_tilt_error := []
    final_pan_error := []
    final_tilt_error := []
    observation := fun _ _ _ => 0
    render_observation := fun _ _ _ => 0
    current_state_text := stateText (tilts.getD 0 0) (pans.getD 0 0)
    action_text := "None" }

/-- The ways a `reset`/`step` call can raise in Python. -/
inductive StepErr where
  /-- `assert False` on an action outside {0,…,4}. -/
  | invalidAction : StepErr
  /-- `IndexError`: `lst[-1]` on an empty statistics list. -/
  | emptyStats : StepErr
  /-- `KeyError`: `(tilt, pan)` entry absent for the current person. -/
  | missingKey : StepErr
deriving DecidableEq, Repr

/-- Method `reset(self)`.  `d0 d1 d2` are the three `np.random` draws
(person, tilt index, pan index).  Returns the new state and the returned
observation. -/
def resetF (persons : Persons) (d0 d1 d2 : ℕ) (s : EnvState) :
    Except StepErr (EnvState × Obs) :=
  let current_person := if s.testing then 20 + d0 % 10 else d0 % 20
  let current_tilt : ℤ := (d1 % tilts.length : ℕ)
  let current_pan : ℤ := (d2 % pans.length : ℕ)
  let tilt := tilts.getD current_tilt.toNat 0
  let pan := pans.getD current_pan.toNat 0
  match persons current_person (tilt, pan) with
  | none => .error .missingKey
  | some (obs, robs) =>
    let observation := subMean obs
    .ok ({ s with
            current_person := current_person
            error_memory := []
            current_tilt := current_tilt
            current_pan := current_pan
            observation := observation
            render_observation := robs
            epoch_counter := s.epoch_counter + 1
            iteration_counter := 0
            init_pan_error := s.init_pan_error ++ [pan]
            init_tilt_error := s.init_tilt_error ++ [tilt]
            final_pan_error := s.final_pan_error ++ [pan]
            final_tilt_error := s.final_tilt_error ++ [tilt]
            current_state_text := stateText tilt pan
            action_text := "None" },
          observation)

/-- The action-dispatch block at the top of `step` (lines 109–120):
clamped index updates, `assert False` for any other action value. -/
def applyAction (s : EnvState) (action : ℕ) : Except StepErr EnvState :=
  if action = 0 then .ok s
  else if action = 1 then
    .ok { s with current_tilt := max 0 (s.current_tilt - 1) }
  else if action = 2 then
    .ok { s with current_tilt := min ((tilts.length : ℤ) - 1) (s.current_tilt + 1) }
  else if action = 3 then
    .ok { s with current_pan := max 0 (s.current_pan - 1) }
  else if action = 4 then
    .ok { s with current_pan := min ((pans.length : ℤ) - 1) (s.current_pan + 1) }
  else .error .invalidAction

/-- The `action_text` table of `step` (lines 126–135). -/
def actionText (action : ℕ) : String :=
  if action = 0 then "Stay"
  else if action = 1 then "Up"
  else if action = 2 then "Down"
  else if action = 3 then "Left"
  else "Right"

/-- Line 148:
`error = (float(tilt) / np.max(np.abs(self.tilts))) ** 2 + (float(pan) / np.max(np.abs(self.pans))) ** 2`. -/
def computeError (tilt pan : ℤ) : ℚ :=
  ((tilt : ℚ) / (maxAbs tilts : ℚ)) ^ 2 + ((pan : ℚ) / (maxAbs pans : ℚ)) ^ 2

/-- Lines 152–156: the thresholded base reward computed from the error. -/
def baseReward (error : ℚ) : ℚ :=
  let reward : ℚ := (2 - error) / 2
  if reward < 0.95 then 0 else (reward - 0.95) / 0.05

/-- Lines 159–162: the shaping bonus added to the base reward, computed from
the updated `error_memory` (the current error is its last entry). -/
def shapedReward (error_memory : List ℚ) (reward : ℚ) : ℚ :=
  if error_memory.length > 2 ∧
      error_memory.getD (error_memory.length - 2) 0 >
        error_memory.getD (error_memory.length - 1) 0 then
    reward + 0.1
  else if error_memory.length > 2 ∧
      error_memory.getD (error_memory.length - 2) 0 <
        error_memory.getD (error_memory.length - 1) 0 then
    reward + -0.15
  else reward

/-- Method `step(self, action)`: returns the new state together with the returned
tuple `(observation, reward, done, {})` (the empty info dict is dropped). -/
def stepF (persons : Persons) (s : EnvState) (action : ℕ) :
    Except StepErr (EnvState × Obs × ℚ × Bool) := do
  let s ← applyAction s action
  let tilt := tilts.getD s.current_tilt.toNat 0
  let pan := pans.getD s.current_pan.toNat 0
  let s := { s with
              current_state_text := stateText tilt pan
              action_text := actionText action }
  if s.final_pan_error.isEmpty then .error .emptyStats else
  let s := { s with
              final_pan_error := s.final_pan_error.set (s.final_pan_error.length - 1) pan }
  if s.final_tilt_error.isEmpty then .error .emptyStats else
  let s := { s with
              final_tilt_error := s.final_tilt_error.set (s.final_tilt_error.length - 1) tilt }
  match persons s.current_person (tilt, pan) with
  | none => .error .missingKey
  | some (obs, robs) =>
    let observation := subMean obs
    let error : ℚ := computeError tilt pan
    let error_memory := s.error_memory ++ [error]
    let reward : ℚ := shapedReward error_memory (baseReward error)
    let s := { s with
                error_memory := error_memory
                observation := observation
                render_observation := robs
                iteration_counter := s.iteration_counter + 1 }
    .ok (s, observation, reward, false)

/-- The process-wide `np.random` generator, modelled as a stream of draws
together with a cursor. -/
structure RNG where
  stream : ℕ → ℕ
  pos : ℕ

/-- Consume one draw from the shared generator. -/
def draw (g : RNG) : ℕ × RNG := (g.stream g.pos, { g with pos := g.pos + 1 })

/-- Method `reset` with its three `np.random` calls (person, tilt index, pan index)
drawn from the shared generator. -/
def resetR (persons : Persons) (g : RNG) (s : EnvState) :
    Except StepErr (EnvState × Obs) × RNG :=
  let (d0, g) := draw g
  let (d1, g) := draw g
  let (d2, g) := draw g
  (resetF persons d0 d1 d2 s, g)

/-- Method `step` with the shared generator in scope: the body of `step` makes no
`np.random` call, so the generator passes through untouched. -/
def stepR (persons : Persons) (g : RNG) (s : EnvState) (action : ℕ) :
    Except StepErr (EnvState × Obs × ℚ × Bool) × RNG :=
  (stepF persons s action, g)

/-- One externally visible call on the environment, with the random draws
an event of kind `reset` consumes. -/
inductive Event where
  | reset (d0 d1 d2 : ℕ) : Event
  | step (action : ℕ) : Event

/-- Run one event, keeping only the state. -/
def execEvent (persons : Persons) (s : EnvState) : Event → Except StepErr EnvState
  | .reset d0 d1 d2 => (resetF persons d0 d1 d2 s).map Prod.fst
  | .step a => (stepF persons s a).map Prod.fst

/-- Run a sequence of events (a Python exception aborts the run). -/
def exec (persons : Persons) (s : EnvState) : List Event → Except StepErr EnvState
  | [] => .ok s
  | e :: es => do exec persons (← execEvent persons s e) es

/-- Number of `reset` events in a trace. -/
def resetCount : List Event → ℕ
  | [] => 0
  | .reset _ _ _ :: es => resetCount es + 1
  | .step _ :: es => resetCount es

/-- A dataset in which every key is present and every image is zero
(used to instantiate universally quantified theorems at concrete inputs). -/
def constPersons : Persons := fun _ _ => some (default, default)

/-- Predicate stating that the orientation indices lie inside the grids
(the invariant of §3 of the spec). -/
def inBounds (s : EnvState) : Prop :=
  0 ≤ s.current_tilt ∧ s.current_tilt < tilts.length ∧
    0 ≤ s.current_pan ∧ s.current_pan < pans.length

/-- Predicate stating that the last entries of the final-error statistics
lists hold the angles of the current orientation. -/
def finalTracksCurrent (s : EnvState) : Prop :=
  s.final_pan_error.getLast? = some (pans.getD s.current_pan.toNat 0) ∧
  s.final_tilt_error.getLast? = some (tilts.getD s.current_tilt.toNat 0)

/-- State after `reset()` with draws (0, 2, 6) on a fresh training-mode
environment: person 0, tilt index 2 (angle −15), pan index 6 (angle 0). -/
def rS : EnvState :=
  { testing := false
    current_tilt := 2
    current_pan := 6
    current_person := 0
    error_memory := []
    epoch_counter := 0
    iteration_counter := 0
    init_pan_error := [0]
    init_tilt_error := [-15]
    final_pan_error := [0]
    final_tilt_error := [-15]
    observation := subMean default
    render_observation := default
    current_state_text := stateText (-15) 0
    action_text := "None" }

/-- State after one `step(0)` from `rS`: error (15/60)² = 1/16, base reward 3/8. -/
def wS' : EnvState :=
  { testing := false
    current_tilt := 2
    current_pan := 6
    current_person := 0
    error_memory := [1/16]
    epoch_counter := 0
    iteration_counter := 1
    init_pan_error := [0]
    init_tilt_error := [-15]
    final_pan_error := [0]
    final_tilt_error := [-15]
    observation := subMean default
    render_observation := default
    current_state_text := stateText (-15) 0
    action_text := "Stay" }

/-- The tuple returned by that `step(0)` call. -/
def wOut : EnvState × Obs × ℚ × Bool := (wS', subMean default, 3/8, false)

/-- State after a second `step(0)` from `wS'`. -/
def cexS : EnvState :=
  { testing := false
    current_tilt := 2
    current_pan := 6
    current_person := 0
    error_memory := [1/16, 1/16]
    epoch_counter := 0
    iteration_counter := 2
    init_pan_error := [0]
    init_tilt_error := [-15]
    final_pan_error := [0]
    final_tilt_error := [-15]
    observation := subMean default
    render_observation := default
    current_state_text := stateText (-15) 0
    action_text := "Stay" }

/-- The tuple returned by `step(1)` from `cexS`: the error worsens
(1/16 → 1/4) while the raw reward 7/8 is below the 0.95 threshold, so the
returned reward is 0 + (−0.15) = −3/20. -/
def cexOut : EnvState × Obs × ℚ × Bool :=
  ({ testing := false
     current_tilt := 1
     current_pan := 6
     current_person := 0
     error_memory := [1/16, 1/16, 1/4]
     epoch_counter := 0
     iteration_counter := 3
     init_pan_error := [0]
     init_tilt_error := [-15]
     final_pan_error := [0]
     final_tilt_error := [-30]
     observation := subMean default
     render_observation := default
     current_state_text := stateText (-30) 0
     action_text := "Up" }, subMean default, -(3/20), false)

/-- The event trace reaching `cexS` from a fresh environment. -/
def cexTrace : List Event := [.reset 0 2 6, .step 0, .step 0]

/-- A copy of `rS` placed at the lower tilt boundary. -/
def bS : EnvState := { rS with current_tilt := 0 }

/-- Result of the tilt-down action applied at the lower tilt boundary. -/
def bS1 : EnvState := { bS with current_tilt := max 0 (bS.current_tilt - 1) }

lemma error_bind {α β : Type} (e : StepErr) (f : α → Except StepErr β) :
    ((Except.error e : Except StepErr α) >>= f) = Except.error e := rfl

lemma ok_bind {α β : Type} (x : α) (f : α → Except StepErr β) :
    ((Except.ok x : Except StepErr α) >>= f) = f x := rfl

lemma applyAction_ok_of_lt {s : EnvState} {a : ℕ} (h : a < 5) :
    ∃ s1, applyAction s a = .ok s1 := by
  interval_cases a <;> exact ⟨_, rfl⟩

lemma applyAction_error_of_ge {s : EnvState} {a : ℕ} (h : 5 ≤ a) :
    applyAction s a = .error .invalidAction := by
  unfold applyAction
  split_ifs with h0 h1 h2 h3 h4 <;> first | rfl | omega

lemma applyAction_fields {s s1 : EnvState} {a : ℕ} (h : applyAction s a = .ok s1) :
    s1.testing = s.testing ∧ s1.current_person = s.current_person ∧
    s1.error_memory = s.error_memory ∧
    s1.init_pan_error = s.init_pan_error ∧ s1.init_tilt_error = s.init_tilt_error ∧
    s1.final_pan_error = s.final_pan_error ∧ s1.final_tilt_error = s.final_tilt_error ∧
    s1.iteration_counter = s.iteration_counter ∧ s1.epoch_counter = s.epoch_counter := by
  unfold applyAction at h
  split_ifs at h <;> cases h <;> exact ⟨rfl, rfl, rfl, rfl, rfl, rfl, rfl, rfl, rfl⟩

lemma applyAction_inBounds {s s1 : EnvState} {a : ℕ} (h : applyAction s a = .ok s1)
    (hb : inBounds s) : inBounds s1 := by
  unfold applyAction at h
  unfold inBounds at hb ⊢
  split_ifs at h <;> cases h <;> simp only [tilts, pans, List.length] at hb ⊢ <;> omega

lemma stepF_ok_spec {p : Persons} {s : EnvState} {a : ℕ} {out : EnvState × Obs × ℚ × Bool}
    (h : stepF p s a = .ok out) :
    ∃ s1, applyAction s a = .ok s1 ∧
      s.final_pan_error ≠ [] ∧ s.final_tilt_error ≠ [] ∧
      ∃ obs robs,
        p s1.current_person
            (tilts.getD s1.current_tilt.toNat 0, pans.getD s1.current_pan.toNat 0) =
          some (obs, robs) ∧
        out.1.current_tilt = s1.current_tilt ∧ out.1.current_pan = s1.current_pan ∧
        out.1.testing = s.testing ∧ out.1.current_person = s.current_person ∧
        out.1.error_memory = s.error_memory ++
          [computeError (tilts.getD s1.current_tilt.toNat 0) (pans.getD s1.current_pan.toNat 0)] ∧
        out.1.init_pan_error = s.init_pan_error ∧
        out.1.init_tilt_error = s.init_tilt_error ∧
        out.1.final_pan_error =
          s.final_pan_error.set (s.final_pan_error.length - 1)
            (pans.getD s1.current_pan.toNat 0) ∧
        out.1.final_tilt_error =
          s.final_tilt_error.set (s.final_tilt_error.length - 1)
            (tilts.getD s1.current_tilt.toNat 0) ∧
        out.1.iteration_counter = s.iteration_counter + 1 ∧
        out.1.epoch_counter = s.epoch_counter ∧
        out.2.1 = subMean obs ∧
        out.2.2.1 = shapedReward
          (s.error_memory ++
            [computeError (tilts.getD s1.current_tilt.toNat 0) (pans.getD s1.current_pan.toNat 0)])
          (baseReward
            (computeError (tilts.getD s1.current_tilt.toNat 0) (pans.getD s1.current_pan.toNat 0))) ∧
        out.2.2.2 = false := by
  unfold stepF at h
  cases hA : applyAction s a with
  | error e => rw [hA, error_bind] at h; exact Except.noConfusion h
  | ok s1 =>
    rw [hA, ok_bind] at h
    obtain ⟨hT, hP, hE, hI1, hI2, hF1, hF2, hIt, hEp⟩ := applyAction_fields hA
    refine ⟨s1, rfl, ?_⟩
    dsimp only at h
    split at h
    · exact Except.noConfusion h
    · split at h
      · exact Except.noConfusion h
      · rename_i hpe hte
        cases hM : p s1.current_person
            (tilts.getD s1.current_tilt.toNat 0, pans.getD s1.current_pan.toNat 0) with
        | none => rw [hM] at h; exact Except.noConfusion h
        | some pr =>
          obtain ⟨obs, robs⟩ := pr
          rw [hM] at h
          cases h
          rw [Bool.not_eq_true, List.isEmpty_eq_false] at hpe hte
          rw [hF1] at hpe
          rw [hF2] at hte
          exact ⟨hpe, hte, obs, robs, rfl, rfl, rfl, hT, hP, by rw [hE], hI1, hI2,
            by rw [hF1], by rw [hF2], by rw [hIt], hEp, rfl, by rw [hE], rfl⟩

lemma resetF_ok_spec {p : Persons} {d0 d1 d2 : ℕ} {s s1 : EnvState} {obs : Obs}
    (h : resetF p d0 d1 d2 s = .ok (s1, obs)) :
    s1.current_person = (if s.testing then 20 + d0 % 10 else d0 % 20) ∧
    s1.current_tilt = ((d1 % tilts.length : ℕ) : ℤ) ∧
    s1.current_pan = ((d2 % pans.length : ℕ) : ℤ) ∧
    s1.error_memory = [] ∧
    s1.testing = s.testing ∧
    s1.epoch_counter = s.epoch_counter + 1 ∧
    s1.iteration_counter = 0 ∧
    s1.init_pan_error = s.init_pan_error ++ [pans.getD s1.current_pan.toNat 0] ∧
    s1.init_tilt_error = s.init_tilt_error ++ [tilts.getD s1.current_tilt.toNat 0] ∧
    s1.final_pan_error = s.final_pan_error ++ [pans.getD s1.current_pan.toNat 0] ∧
    s1.final_tilt_error = s.final_tilt_error ++ [tilts.getD s1.current_tilt.toNat 0] ∧
    ∃ o r,
      p s1.current_person
          (tilts.getD s1.current_tilt.toNat 0, pans.getD s1.current_pan.toNat 0) =
        some (o, r) ∧
      obs = subMean o ∧ s1.observation = subMean o := by
  unfold resetF at h
  dsimp only at h
  cases hM : p (if s.testing = true then 20 + d0 % 10 else d0 % 20)
      (tilts.getD ((d1 % tilts.length : ℕ) : ℤ).toNat 0,
        pans.getD ((d2 % pans.length : ℕ) : ℤ).toNat 0) with
  | none => rw [hM] at h; exact Except.noConfusion h
  | some pr =>
    obtain ⟨o, r⟩ := pr
    rw [hM] at h
    cases h
    exact ⟨rfl, rfl, rfl, rfl, rfl, rfl, rfl, rfl, rfl, rfl, rfl, o, r, hM, rfl, rfl⟩

lemma getLast?_set_last {α : Type} (l : List α) (x : α) (h : l ≠ []) :
    (l.set (l.length - 1) x).getLast? = some x := by
  rw [List.getLast?_eq_getElem?, List.length_set]
  have hl : 0 < l.length := List.length_pos.mpr h
  rw [List.getElem?_set_self (by omega)]

lemma stepF_error_of_empty {p : Persons} {s : EnvState} {a : ℕ} (ha : a < 5)
    (hfe : s.final_pan_error = []) : stepF p s a = .error .emptyStats := by
  obtain ⟨s1, hA⟩ := applyAction_ok_of_lt ha
  obtain ⟨-, -, -, -, -, hF1, -, -, -⟩ := applyAction_fields hA
  unfold stepF
  rw [hA, ok_bind]
  dsimp only
  rw [if_pos]
  rw [hF1, hfe]
  rfl

lemma exec_ok_inv {p : Persons} (P : EnvState → Prop)
    (hR : ∀ d0 d1 d2 s s1 obs, P s → resetF p d0 d1 d2 s = .ok (s1, obs) → P s1)
    (hS : ∀ s a out, P s → stepF p s a = .ok out → P out.1) :
    ∀ tr (s s' : EnvState), P s → exec p s tr = .ok s' → P s' := by
  intro tr
  induction tr with
  | nil =>
    intro s s' hP h
    cases h
    exact hP
  | cons e es ih =>
    intro s s' hP h
    unfold exec at h
    cases hE : execEvent p s e with
    | error err => rw [hE, error_bind] at h; exact Except.noConfusion h
    | ok s1 =>
      rw [hE, ok_bind] at h
      refine ih s1 s' ?_ h
      cases e with
      | reset d0 d1 d2 =>
        unfold execEvent at hE
        dsimp only at hE
        cases hRF : resetF p d0 d1 d2 s with
        | error e2 => rw [hRF] at hE; exact Except.noConfusion hE
        | ok pr =>
          obtain ⟨s2, obs⟩ := pr
          rw [hRF] at hE
          injection hE with hE
          exact hE ▸ hR d0 d1 d2 s s2 obs hP hRF
      | step a =>
        unfold execEvent at hE
        dsimp only at hE
        cases hSF : stepF p s a with
        | error e2 => rw [hSF] at hE; exact Except.noConfusion hE
        | ok out =>
          rw [hSF] at hE
          injection hE with hE
          exact hE ▸ hS s a out hP hSF

lemma exec_stats_length {p : Persons} :
    ∀ (tr : List Event) (s s' : EnvState), exec p s tr = .ok s' →
      s'.init_pan_error.length = s.init_pan_error.length + resetCount tr ∧
      s'.init_tilt_error.length = s.init_tilt_error.length + resetCount tr ∧
      s'.final_pan_error.length = s.final_pan_error.length + resetCount tr ∧
      s'.final_tilt_error.length = s.final_tilt_error.length + resetCount tr := by
  intro tr
  induction tr with
  | nil =>
    intro s s' h
    cases h
    simp [resetCount]
  | cons e es ih =>
    intro s s' h
    unfold exec at h
    cases hE : execEvent p s e with
    | error err => rw [hE, error_bind] at h; exact Except.noConfusion h
    | ok s1 =>
      rw [hE, ok_bind] at h
      obtain ⟨l1, l2, l3, l4⟩ := ih s1 s' h
      cases e with
      | reset d0 d1 d2 =>
        unfold execEvent at hE
        dsimp only at hE
        cases hRF : resetF p d0 d1 d2 s with
        | error e2 => rw [hRF] at hE; exact Except.noConfusion hE
        | ok pr =>
          obtain ⟨s2, obs⟩ := pr
          rw [hRF] at hE
          injection hE with hE
          subst hE
          obtain ⟨-, -, -, -, -, -, -, hi1, hi2, hf1, hf2, -⟩ := resetF_ok_spec hRF
          rw [l1, l2, l3, l4, hi1, hi2, hf1, hf2]
          simp only [List.length_append, List.length_cons, List.length_nil, resetCount]
          omega
      | step a =>
        unfold execEvent at hE
        dsimp only at hE
        cases hSF : stepF p s a with
        | error e2 => rw [hSF] at hE; exact Except.noConfusion hE
        | ok out =>
          rw [hSF] at hE
          injection hE with hE
          subst hE
          obtain ⟨t1, -, -, -, -, -, -, -, -, -, -, -, hi1, hi2, hf1, hf2, -, -, -, -, -⟩ :=
            stepF_ok_spec hSF
          rw [l1, l2, l3, l4, hi1, hi2, hf1, hf2]
          simp only [List.length_set, resetCount]
          exact ⟨trivial, trivial, trivial, trivial⟩

lemma resetF_finalTracks {p : Persons} {d0 d1 d2 : ℕ} {s s1 : EnvState} {obs : Obs}
    (h : resetF p d0 d1 d2 s = .ok (s1, obs)) : finalTracksCurrent s1 := by
  obtain ⟨-, -, -, -, -, -, -, -, -, hf1, hf2, -⟩ := resetF_ok_spec h
  exact ⟨by rw [hf1, List.getLast?_concat], by rw [hf2, List.getLast?_concat]⟩

lemma stepF_finalTracks {p : Persons} {s : EnvState} {a : ℕ}
    {out : EnvState × Obs × ℚ × Bool} (h : stepF p s a = .ok out) :
    finalTracksCurrent out.1 := by
  obtain ⟨s1, hA, hpe, hte, -, -, -, hct, hcp, -, -, -, -, -, hf1, hf2, -, -, -, -, -⟩ :=
    stepF_ok_spec h
  refine ⟨?_, ?_⟩
  · rw [hf1, hcp, getLast?_set_last _ _ hpe]
  · rw [hf2, hct, getLast?_set_last _ _ hte]

lemma resetF_inBounds {p : Persons} {d0 d1 d2 : ℕ} {s s1 : EnvState} {obs : Obs}
    (h : resetF p d0 d1 d2 s = .ok (s1, obs)) : inBounds s1 := by
  obtain ⟨-, hct, hcp, -⟩ := resetF_ok_spec h
  have h1 : d1 % tilts.length < tilts.length := Nat.mod_lt _ (by decide)
  have h2 : d2 % pans.length < pans.length := Nat.mod_lt _ (by decide)
  unfold inBounds
  rw [hct, hcp]
  omega

lemma stepF_inBounds {p : Persons} {s : EnvState} {a : ℕ}
    {out : EnvState × Obs × ℚ × Bool} (h : stepF p s a = .ok out) (hb : inBounds s) :
    inBounds out.1 := by
  obtain ⟨s1, hA, -, -, -, -, -, hct, hcp, -⟩ := stepF_ok_spec h
  have hb1 := applyAction_inBounds hA hb
  unfold inBounds at hb1 ⊢
  rw [hct, hcp]
  exact hb1

lemma exec_inBounds {p : Persons} (tr : List Event) (s s' : EnvState)
    (hb : inBounds s) (hx : exec p s tr = .ok s') : inBounds s' :=
  exec_ok_inv inBounds
    (fun _ _ _ _ _ _ _ h => resetF_inBounds h)
    (fun _ _ _ hP h => stepF_inBounds h hP) tr s s' hb hx

lemma exec_finalTracks {p : Persons} (tr : List Event) (s s' : EnvState)
    (h0 : (s.final_pan_error = [] ∧ s.final_tilt_error = []) ∨ finalTracksCurrent s)
    (hx : exec p s tr = .ok s') :
    (s'.final_pan_error = [] ∧ s'.final_tilt_error = []) ∨ finalTracksCurrent s' :=
  exec_ok_inv (fun t => (t.final_pan_error = [] ∧ t.final_tilt_error = []) ∨ finalTracksCurrent t)
    (fun _ _ _ _ _ _ _ h => Or.inr (resetF_finalTracks h))
    (fun _ _ _ _ h => Or.inr (stepF_finalTracks h)) tr s s' h0 hx

lemma computeError_nonneg (tilt pan : ℤ) : 0 ≤ computeError tilt pan := by
  unfold computeError
  positivity

lemma tilts_getD_abs (n : ℕ) : (tilts.getD n 0).natAbs ≤ 60 := by
  rcases Nat.lt_or_ge n tilts.length with h | h
  · have h7 : n < 7 := by simpa [tilts] using h
    interval_cases n <;> decide
  · rw [List.getD_eq_default _ _ h]
    decide

lemma pans_getD_abs (n : ℕ) : (pans.getD n 0).natAbs ≤ 90 := by
  rcases Nat.lt_or_ge n pans.length with h | h
  · have h13 : n < 13 := by simpa [pans] using h
    interval_cases n <;> decide
  · rw [List.getD_eq_default _ _ h]
    decide

lemma computeError_le_two (n m : ℕ) :
    computeError (tilts.getD n 0) (pans.getD m 0) ≤ 2 := by
  have ht := tilts_getD_abs n
  have hp := pans_getD_abs m
  have ht' : -60 ≤ tilts.getD n 0 ∧ tilts.getD n 0 ≤ 60 := by omega
  have hp' : -90 ≤ pans.getD m 0 ∧ pans.getD m 0 ≤ 90 := by omega
  have ht1 : ((tilts.getD n 0 : ℚ))^2 ≤ 60^2 := by
    apply sq_le_sq'
    · exact_mod_cast ht'.1
    · exact_mod_cast ht'.2
  have hp1 : ((pans.getD m 0 : ℚ))^2 ≤ 90^2 := by
    apply sq_le_sq'
    · exact_mod_cast hp'.1
    · exact_mod_cast hp'.2
  unfold computeError
  have hmt : (maxAbs tilts : ℚ) = 60 := by norm_num [maxAbs, tilts]
  have hmp : (maxAbs pans : ℚ) = 90 := by norm_num [maxAbs, pans]
  rw [hmt, hmp, div_pow, div_pow]
  have d1 : ((tilts.getD n 0 : ℚ))^2 / (60:ℚ)^2 ≤ 1 := by
    rw [div_le_one (by norm_num)]
    exact ht1
  have d2 : ((pans.getD m 0 : ℚ))^2 / (90:ℚ)^2 ≤ 1 := by
    rw [div_le_one (by norm_num)]
    exact hp1
  linarith

lemma baseReward_nonneg (e : ℚ) : 0 ≤ baseReward e := by
  unfold baseReward
  dsimp only
  split_ifs with h
  · exact le_refl 0
  · push_neg at h
    have h1 : (0:ℚ) ≤ (2 - e) / 2 - 0.95 := by linarith
    have h2 : (0:ℚ) < 0.05 := by norm_num
    positivity

lemma baseReward_le_one (e : ℚ) (he : 0 ≤ e) : baseReward e ≤ 1 := by
  unfold baseReward
  dsimp only
  split_ifs with h
  · norm_num
  · push_neg at h
    rw [div_le_one (by norm_num)]
    linarith

lemma baseReward_eq_zero (e : ℚ) (h : (2 - e) / 2 < 0.95) : baseReward e = 0 := by
  unfold baseReward
  dsimp only
  rw [if_pos h]

lemma shapedReward_cases (em : List ℚ) (r : ℚ) :
    shapedReward em r = r ∨ shapedReward em r = r + 0.1 ∨ shapedReward em r = r + -0.15 := by
  unfold shapedReward
  split_ifs <;> tauto

lemma shapedReward_spec (em : List ℚ) (e r : ℚ) :
    shapedReward (em ++ [e]) r =
      r + (if 3 ≤ (em ++ [e]).length then
            (if e < em.getLast?.getD 0 then 0.1
             else if em.getLast?.getD 0 < e then -0.15 else 0)
          else 0) := by
  have hlen : (em ++ [e]).length = em.length + 1 := by simp
  rcases Nat.lt_or_ge (em.length + 1) 3 with hsmall | hbig
  · unfold shapedReward
    rw [if_neg, if_neg, if_neg]
    · ring
    · rw [hlen]; omega
    · rintro ⟨hgt, -⟩; rw [hlen] at hgt; omega
    · rintro ⟨hgt, -⟩; rw [hlen] at hgt; omega
  · have hem : 2 ≤ em.length := by omega
    have hne : em ≠ [] := by
      intro hh
      rw [hh] at hem
      simp at hem
    have h1 : (em ++ [e]).getD ((em ++ [e]).length - 1) 0 = e := by
      rw [hlen]
      simp only [Nat.add_sub_cancel]
      rw [List.getD_eq_getElem?_getD, List.getElem?_concat_length]
      rfl
    have h2 : (em ++ [e]).getD ((em ++ [e]).length - 2) 0 = em.getLast?.getD 0 := by
      rw [hlen]
      have he2 : em.length + 1 - 2 = em.length - 1 := by omega
      rw [he2, List.getD_eq_getElem?_getD, List.getElem?_append_left (by omega),
        List.getLast?_eq_getElem?]
    have hlen3 : (em ++ [e]).length > 2 := by rw [hlen]; omega
    have hge3 : 3 ≤ (em ++ [e]).length := by rw [hlen]; omega
    unfold shapedReward
    rw [h1, h2]
    simp only [hlen3, hge3, true_and, if_true]
    split_ifs with c1 c2 <;> ring

lemma resetW_eval :
    resetF constPersons 0 2 6 (initState false 0) = .ok (rS, subMean default) := by
  simp [resetF, initState, constPersons, tilts, pans, rS]

lemma stepW_eval : stepF constPersons rS 0 = .ok wOut := by
  simp [stepF, applyAction, constPersons, rS, wS', wOut, tilts, pans, computeError,
    maxAbs, baseReward, shapedReward, actionText, ok_bind, error_bind]
  norm_num

lemma stepW2_eval : stepF constPersons wS' 0 = .ok (cexS, subMean default, 3/8, false) := by
  simp [stepF, applyAction, constPersons, wS', cexS, tilts, pans, computeError,
    maxAbs, baseReward, shapedReward, actionText, ok_bind, error_bind]
  norm_num

lemma stepCex_eval : stepF constPersons cexS 1 = .ok cexOut := by
  simp [stepF, applyAction, constPersons, cexS, cexOut, tilts, pans, computeError,
    maxAbs, baseReward, shapedReward, actionText, ok_bind, error_bind]
  norm_num

lemma execW_eval : exec constPersons (initState false 0) [.reset 0 2 6] = .ok rS := by
  simp [exec, execEvent, resetW_eval, ok_bind, error_bind, Except.map]

lemma execCex_eval : exec constPersons (initState false 0) cexTrace = .ok cexS := by
  simp [cexTrace, exec, execEvent, resetW_eval, stepW_eval, stepW2_eval, wOut,
    ok_bind, error_bind, Except.map]

/-- C1 (counterexample): on the concrete reachable state `cexS` (reset to
tilt −15 / pan 0, then two stay-steps), `step(1)` returns reward −3/20 while
the raw reward (2 − 1/4)/2 = 7/8 is below 0.95 — so the reward is neither
inside [0, 1.15] nor equal to 0 when raw < 0.95; the claim as stated is
false. -/
theorem step_reward_claim_counterexample :
    exec constPersons (initState false 0) cexTrace = .ok cexS ∧
    stepF constPersons cexS 1 = .ok cexOut ∧
    cexOut.2.2.1 = -(3/20) ∧
    cexOut.1.error_memory.getLast?.getD 0 = 1/4 ∧
    ¬(0 ≤ cexOut.2.2.1 ∧ cexOut.2.2.1 ≤ 1.15 ∧
      ((2 - cexOut.1.error_memory.getLast?.getD 0) / 2 < 0.95 → cexOut.2.2.1 = 0)) ∧
    ((2 - cexOut.1.error_memory.getLast?.getD 0) / 2 < 0.95 ∧ cexOut.2.2.1 ≠ 0) := by
  refine ⟨execCex_eval, stepCex_eval, rfl, rfl, ?_, ?_⟩
  · rintro ⟨h0, -, -⟩
    norm_num [cexOut] at h0
  · constructor
    · norm_num [cexOut]
    · norm_num [cexOut]

/-- C1 (amended): the reward returned by every successful `step` call lies in
the closed range [−0.15, 1.1], and whenever the raw reward
(2 − error)/2 of the step is below 0.95 the returned reward is exactly the
shaping bonus alone: 0, +0.1 or −0.15. -/
theorem step_reward_range (p : Persons) (s : EnvState) (a : ℕ)
    (out : EnvState × Obs × ℚ × Bool) (h : stepF p s a = .ok out) :
    -0.15 ≤ out.2.2.1 ∧ out.2.2.1 ≤ 1.1 ∧
      ((2 - out.1.error_memory.getLast?.getD 0) / 2 < 0.95 →
        out.2.2.1 = 0 ∨ out.2.2.1 = 0.1 ∨ out.2.2.1 = -0.15) := by
  obtain ⟨s1, -, -, -, -, -, -, -, -, -, -, hem, -, -, -, -, -, -, -, hrw, -⟩ :=
    stepF_ok_spec h
  set e := computeError (tilts.getD s1.current_tilt.toNat 0)
    (pans.getD s1.current_pan.toNat 0) with he
  have hlast : out.1.error_memory.getLast?.getD 0 = e := by
    rw [hem, List.getLast?_concat]
    rfl
  have hb0 := baseReward_nonneg e
  have hb1 := baseReward_le_one e (computeError_nonneg _ _)
  have hcase := shapedReward_cases (s.error_memory ++ [e]) (baseReward e)
  rw [hrw, hlast]
  refine ⟨?_, ?_, ?_⟩
  · rcases hcase with hc | hc | hc <;> rw [hc] <;> linarith
  · rcases hcase with hc | hc | hc <;> rw [hc] <;> linarith
  · intro hthr
    have hz := baseReward_eq_zero e hthr
    rcases hcase with hc | hc | hc <;> rw [hc, hz] <;> norm_num

/-- C1 (witness): the amended reward-range theorem applied to the concrete
step `stepF constPersons rS 0`, whose reward is 3/8. -/
theorem step_reward_range_witness :
    -0.15 ≤ wOut.2.2.1 ∧ wOut.2.2.1 ≤ 1.1 ∧
      ((2 - wOut.1.error_memory.getLast?.getD 0) / 2 < 0.95 →
        wOut.2.2.1 = 0 ∨ wOut.2.2.1 = 0.1 ∨ wOut.2.2.1 = -0.15) :=
  step_reward_range constPersons rS 0 wOut stepW_eval

/-- C2: in every successful `step` call the error sequence grows by one
entry, and the returned reward equals the base reward of the new (last)
error plus a shaping bonus that is applied only when the updated per-episode
error sequence has at least 3 entries: +0.1 when the previous error is
strictly greater than the current one, −0.15 when strictly smaller, 0 on a
tie. -/
theorem step_shaping_bonus (p : Persons) (s : EnvState) (a : ℕ)
    (out : EnvState × Obs × ℚ × Bool) (h : stepF p s a = .ok out) :
    out.1.error_memory.length = s.error_memory.length + 1 ∧
    out.2.2.1 =
      baseReward (out.1.error_memory.getLast?.getD 0) +
        (if 3 ≤ out.1.error_memory.length then
          (if out.1.error_memory.getLast?.getD 0 < s.error_memory.getLast?.getD 0 then 0.1
           else if s.error_memory.getLast?.getD 0 < out.1.error_memory.getLast?.getD 0 then
             -0.15
           else 0)
        else 0) := by
  obtain ⟨s1, -, -, -, -, -, -, -, -, -, -, hem, -, -, -, -, -, -, -, hrw, -⟩ :=
    stepF_ok_spec h
  set e := computeError (tilts.getD s1.current_tilt.toNat 0)
    (pans.getD s1.current_pan.toNat 0) with he
  have hlen : out.1.error_memory.length = s.error_memory.length + 1 := by
    rw [hem]
    simp
  refine ⟨hlen, ?_⟩
  rw [hrw, shapedReward_spec, hem, List.getLast?_concat]
  simp

/-- C2 (witness): the shaping-bonus decomposition at the concrete step
`stepF constPersons rS 0` (first step of the episode, bonus skipped). -/
theorem step_shaping_bonus_witness :
    wOut.1.error_memory.length = rS.error_memory.length + 1 ∧
    wOut.2.2.1 =
      baseReward (wOut.1.error_memory.getLast?.getD 0) +
        (if 3 ≤ wOut.1.error_memory.length then
          (if wOut.1.error_memory.getLast?.getD 0 < rS.error_memory.getLast?.getD 0 then 0.1
           else if rS.error_memory.getLast?.getD 0 < wOut.1.error_memory.getLast?.getD 0 then
             -0.15
           else 0)
        else 0) :=
  step_shaping_bonus constPersons rS 0 wOut stepW_eval

/-- C3: after any trace of reset/step events from a fresh environment the
orientation indices stay within [0, len(tilts)−1] and [0, len(pans)−1], and
each boundary-pushing action applied at its boundary leaves the
corresponding index unchanged (clamping, no wrap). -/
theorem indices_clamped (p : Persons) (t : Bool) (d0 : ℕ) :
    (∀ (tr : List Event) (s' : EnvState), exec p (initState t d0) tr = .ok s' →
      0 ≤ s'.current_tilt ∧ s'.current_tilt < tilts.length ∧
      0 ≤ s'.current_pan ∧ s'.current_pan < pans.length) ∧
    (∀ s s1 : EnvState,
      (s.current_tilt = 0 → applyAction s 1 = .ok s1 → s1.current_tilt = 0) ∧
      (s.current_tilt = (tilts.length : ℤ) - 1 → applyAction s 2 = .ok s1 →
        s1.current_tilt = (tilts.length : ℤ) - 1) ∧
      (s.current_pan = 0 → applyAction s 3 = .ok s1 → s1.current_pan = 0) ∧
      (s.current_pan = (pans.length : ℤ) - 1 → applyAction s 4 = .ok s1 →
        s1.current_pan = (pans.length : ℤ) - 1)) := by
  constructor
  · intro tr s' hx
    exact exec_inBounds tr _ s' (by norm_num [inBounds, initState, tilts, pans]) hx
  · intro s s1
    refine ⟨?_, ?_, ?_, ?_⟩ <;> intro hb h
    · have he : applyAction s 1 = .ok { s with current_tilt := max 0 (s.current_tilt - 1) } := rfl
      rw [he] at h
      injection h with h
      rw [← h]
      show max 0 (s.current_tilt - 1) = 0
      omega
    · have he : applyAction s 2 =
          .ok { s with current_tilt := min ((tilts.length : ℤ) - 1) (s.current_tilt + 1) } := rfl
      rw [he] at h
      injection h with h
      rw [← h]
      show min ((tilts.length : ℤ) - 1) (s.current_tilt + 1) = (tilts.length : ℤ) - 1
      omega
    · have he : applyAction s 3 = .ok { s with current_pan := max 0 (s.current_pan - 1) } := rfl
      rw [he] at h
      injection h with h
      rw [← h]
      show max 0 (s.current_pan - 1) = 0
      omega
    · have he : applyAction s 4 =
          .ok { s with current_pan := min ((pans.length : ℤ) - 1) (s.current_pan + 1) } := rfl
      rw [he] at h
      injection h with h
      rw [← h]
      show min ((pans.length : ℤ) - 1) (s.current_pan + 1) = (pans.length : ℤ) - 1
      omega

/-- C3 (witness): the bounds hold for the concrete post-reset state `rS`,
and tilt-down (action 1) at tilt index 0 leaves the index at 0. -/
theorem indices_clamped_witness :
    (0 ≤ rS.current_tilt ∧ rS.current_tilt < tilts.length ∧
      0 ≤ rS.current_pan ∧ rS.current_pan < pans.length) ∧
    bS1.current_tilt = 0 :=
  ⟨(indices_clamped constPersons false 0).1 [Event.reset 0 2 6] rS execW_eval,
   ((indices_clamped constPersons false 0).2 bS bS1).1 rfl rfl⟩

/-- C4: `step` fails fast (with the `assert False` error) for every action
value outside {0,…,4}, and for every action in {0,…,4} the action dispatch
itself raises no error. -/
theorem step_rejects_invalid_action (p : Persons) (s : EnvState) (a : ℕ) :
    (5 ≤ a → stepF p s a = .error .invalidAction) ∧
    (a < 5 → ∃ s1, applyAction s a = .ok s1) := by
  constructor
  · intro h
    unfold stepF
    rw [applyAction_error_of_ge h, error_bind]
  · exact fun h => applyAction_ok_of_lt h

/-- C4 (witness): action 7 aborts with the invalid-action error at the
concrete state `rS`; action 0 dispatches without error. -/
theorem step_rejects_invalid_action_witness :
    stepF constPersons rS 7 = .error .invalidAction ∧ ∃ s1, applyAction rS 0 = .ok s1 :=
  ⟨(step_rejects_invalid_action constPersons rS 7).1 (by norm_num),
   (step_rejects_invalid_action constPersons rS 0).2 (by norm_num)⟩

/-- C5: every successful `step` call returns `done = false`, whatever the
state and action. -/
theorem step_never_done (p : Persons) (s : EnvState) (a : ℕ)
    (out : EnvState × Obs × ℚ × Bool) (h : stepF p s a = .ok out) : out.2.2.2 = false := by
  obtain ⟨s1, -, -, -, -, -, -, -, -, -, -, -, -, -, -, -, -, -, -, -, hdone⟩ := stepF_ok_spec h
  exact hdone

/-- C5 (witness): `done = false` for the concrete step `stepF constPersons rS 0`. -/
theorem step_never_done_witness : wOut.2.2.2 = false :=
  step_never_done constPersons rS 0 wOut stepW_eval

/-- C6: the error appended by every successful `step` call equals
(tilt/max_abs_tilt)² + (pan/max_abs_pan)² for the post-action angles, where
the maxima of the absolute grid values are 60 and 90, and this error lies in
[0, 2]. -/
theorem step_error_formula (p : Persons) (s : EnvState) (a : ℕ)
    (out : EnvState × Obs × ℚ × Bool) (h : stepF p s a = .ok out) :
    out.1.error_memory =
      s.error_memory ++
        [computeError (tilts.getD out.1.current_tilt.toNat 0)
          (pans.getD out.1.current_pan.toNat 0)] ∧
    maxAbs tilts = 60 ∧ maxAbs pans = 90 ∧
    0 ≤ computeError (tilts.getD out.1.current_tilt.toNat 0)
        (pans.getD out.1.current_pan.toNat 0) ∧
    computeError (tilts.getD out.1.current_tilt.toNat 0)
        (pans.getD out.1.current_pan.toNat 0) ≤ 2 := by
  obtain ⟨s1, -, -, -, -, -, -, hct, hcp, -, -, hem, -⟩ := stepF_ok_spec h
  rw [hct, hcp]
  exact ⟨hem, rfl, rfl, computeError_nonneg _ _, computeError_le_two _ _⟩

/-- C6 (witness): the error formula and bounds at the concrete step
`stepF constPersons rS 0` (error 1/16). -/
theorem step_error_formula_witness :
    wOut.1.error_memory =
      rS.error_memory ++
        [computeError (tilts.getD wOut.1.current_tilt.toNat 0)
          (pans.getD wOut.1.current_pan.toNat 0)] ∧
    maxAbs tilts = 60 ∧ maxAbs pans = 90 ∧
    0 ≤ computeError (tilts.getD wOut.1.current_tilt.toNat 0)
        (pans.getD wOut.1.current_pan.toNat 0) ∧
    computeError (tilts.getD wOut.1.current_tilt.toNat 0)
        (pans.getD wOut.1.current_pan.toNat 0) ≤ 2 :=
  step_error_formula constPersons rS 0 wOut stepW_eval

/-- C7: every successful `reset` call returns the lookup-table entry for the
freshly drawn (person, (tilt, pan)) key minus the fixed mean vector, draws
the person from the pool matching the mode flag ([20, 30) when testing,
[0, 20) when training — disjoint ranges), and draws the orientation indices
inside the full grid. -/
theorem reset_observation_spec (p : Persons) (d0 d1 d2 : ℕ) (s s1 : EnvState) (obs : Obs)
    (h : resetF p d0 d1 d2 s = .ok (s1, obs)) :
    (∃ o r, p s1.current_person
        (tilts.getD s1.current_tilt.toNat 0, pans.getD s1.current_pan.toNat 0) =
          some (o, r) ∧
      obs = subMean o ∧ s1.observation = subMean o) ∧
    (s.testing = true → 20 ≤ s1.current_person ∧ s1.current_person < 30) ∧
    (s.testing = false → s1.current_person < 20) ∧
    0 ≤ s1.current_tilt ∧ s1.current_tilt < tilts.length ∧
    0 ≤ s1.current_pan ∧ s1.current_pan < pans.length := by
  obtain ⟨hp, hct, hcp, -, -, -, -, -, -, -, -, hex⟩ := resetF_ok_spec h
  refine ⟨hex, ?_, ?_, resetF_inBounds h⟩
  · intro ht
    rw [hp, if_pos ht]
    have := Nat.mod_lt d0 (show 0 < 10 by norm_num)
    omega
  · intro ht
    rw [hp, ht]
    simp only [Bool.false_eq_true, if_false]
    exact Nat.mod_lt d0 (by norm_num)

/-- C7 (witness): the reset-observation contract at the concrete call
`resetF constPersons 0 2 6 (initState false 0)`. -/
theorem reset_observation_spec_witness :
    (∃ o r, constPersons rS.current_person
        (tilts.getD rS.current_tilt.toNat 0, pans.getD rS.current_pan.toNat 0) =
          some (o, r) ∧
      (subMean default : Obs) = subMean o ∧ rS.observation = subMean o) ∧
    ((initState false 0).testing = true → 20 ≤ rS.current_person ∧ rS.current_person < 30) ∧
    ((initState false 0).testing = false → rS.current_person < 20) ∧
    0 ≤ rS.current_tilt ∧ rS.current_tilt < tilts.length ∧
    0 ≤ rS.current_pan ∧ rS.current_pan < pans.length :=
  reset_observation_spec constPersons 0 2 6 (initState false 0) rS (subMean default) resetW_eval

/-- C8: after any trace from a fresh environment each statistics list has
exactly as many entries as there were `reset` events; after at least one
reset the last entries of the final-error lists equal the current angles
(the value frozen by the most recent step, or the initial value when no step
occurred); `reset` appends one entry to every list while `step` rewrites
only the last entry of the final-error lists in place, leaving the
initial-error lists and all lengths unchanged. -/
theorem stats_bookkeeping (p : Persons) (t : Bool) (d0 : ℕ) :
    (∀ (tr : List Event) (s' : EnvState), exec p (initState t d0) tr = .ok s' →
      s'.init_pan_error.length = resetCount tr ∧
      s'.init_tilt_error.length = resetCount tr ∧
      s'.final_pan_error.length = resetCount tr ∧
      s'.final_tilt_error.length = resetCount tr ∧
      (0 < resetCount tr →
        s'.final_pan_error.getLast? = some (pans.getD s'.current_pan.toNat 0) ∧
        s'.final_tilt_error.getLast? = some (tilts.getD s'.current_tilt.toNat 0))) ∧
    (∀ (e0 e1 e2 : ℕ) (s s1 : EnvState) (obs : Obs),
      resetF p e0 e1 e2 s = .ok (s1, obs) →
      s1.init_pan_error = s.init_pan_error ++ [pans.getD s1.current_pan.toNat 0] ∧
      s1.init_tilt_error = s.init_tilt_error ++ [tilts.getD s1.current_tilt.toNat 0] ∧
      s1.final_pan_error = s.final_pan_error ++ [pans.getD s1.current_pan.toNat 0] ∧
      s1.final_tilt_error = s.final_tilt_error ++ [tilts.getD s1.current_tilt.toNat 0]) ∧
    (∀ (s : EnvState) (a : ℕ) (out : EnvState × Obs × ℚ × Bool),
      stepF p s a = .ok out →
      out.1.init_pan_error = s.init_pan_error ∧
      out.1.init_tilt_error = s.init_tilt_error ∧
      out.1.final_pan_error =
        s.final_pan_error.set (s.final_pan_error.length - 1)
          (pans.getD out.1.current_pan.toNat 0) ∧
      out.1.final_tilt_error =
        s.final_tilt_error.set (s.final_tilt_error.length - 1)
          (tilts.getD out.1.current_tilt.toNat 0) ∧
      out.1.final_pan_error.length = s.final_pan_error.length ∧
      out.1.final_tilt_error.length = s.final_tilt_error.length) := by
  refine ⟨?_, ?_, ?_⟩
  · intro tr s' hx
    obtain ⟨l1, l2, l3, l4⟩ := exec_stats_length tr _ s' hx
    simp only [initState, List.length_nil, Nat.zero_add] at l1 l2 l3 l4
    refine ⟨l1, l2, l3, l4, ?_⟩
    intro hrc
    have htr := exec_finalTracks tr _ s' (Or.inl ⟨rfl, rfl⟩) hx
    rcases htr with ⟨hemp, -⟩ | htracks
    · exfalso
      rw [hemp] at l3
      simp at l3
      omega
    · exact htracks
  · intro e0 e1 e2 s s1 obs h
    obtain ⟨-, -, -, -, -, -, -, hi1, hi2, hf1, hf2, -⟩ := resetF_ok_spec h
    exact ⟨hi1, hi2, hf1, hf2⟩
  · intro s a out h
    obtain ⟨s1, -, -, -, -, -, -, hct, hcp, -, -, -, hi1, hi2, hf1, hf2, -⟩ := stepF_ok_spec h
    rw [hct, hcp]
    exact ⟨hi1, hi2, hf1, hf2, by rw [hf1, List.length_set], by rw [hf2, List.length_set]⟩

/-- C8 (witness): the statistics bookkeeping after the single-reset trace
reaching `rS`. -/
theorem stats_bookkeeping_witness :
    rS.init_pan_error.length = resetCount [Event.reset 0 2 6] ∧
    rS.init_tilt_error.length = resetCount [Event.reset 0 2 6] ∧
    rS.final_pan_error.length = resetCount [Event.reset 0 2 6] ∧
    rS.final_tilt_error.length = resetCount [Event.reset 0 2 6] ∧
    (0 < resetCount [Event.reset 0 2 6] →
      rS.final_pan_error.getLast? = some (pans.getD rS.current_pan.toNat 0) ∧
      rS.final_tilt_error.getLast? = some (tilts.getD rS.current_tilt.toNat 0)) :=
  (stats_bookkeeping constPersons false 0).1 [Event.reset 0 2 6] rS execW_eval

/-- C9: calling `step` with any valid action on a freshly constructed
environment fails with the empty-statistics indexing error; every successful
`step` call requires the final-error statistics lists to be nonempty, which
on a trace from a fresh environment happens exactly when at least one
`reset` has been executed. -/
theorem step_requires_reset (p : Persons) :
    (∀ (t : Bool) (d0 a : ℕ), a < 5 →
      stepF p (initState t d0) a = .error .emptyStats) ∧
    (∀ (s : EnvState) (a : ℕ) (out : EnvState × Obs × ℚ × Bool),
      stepF p s a = .ok out → s.final_pan_error ≠ [] ∧ s.final_tilt_error ≠ []) ∧
    (∀ (t : Bool) (d0 : ℕ) (tr : List Event) (s' : EnvState),
      exec p (initState t d0) tr = .ok s' →
      (s'.final_pan_error ≠ [] ↔ 0 < resetCount tr)) := by
  refine ⟨?_, ?_, ?_⟩
  · intro t d0 a ha
    exact stepF_error_of_empty ha rfl
  · intro s a out h
    obtain ⟨s1, -, hpe, hte, -⟩ := stepF_ok_spec h
    exact ⟨hpe, hte⟩
  · intro t d0 tr s' hx
    obtain ⟨-, -, l3, -⟩ := exec_stats_length tr _ s' hx
    simp only [initState, List.length_nil, Nat.zero_add] at l3
    rw [← l3]
    exact List.length_pos.symm

/-- C9 (witness): `step(0)` on a fresh environment raises the
empty-statistics error, while the post-reset state `rS` satisfies the
nonemptiness precondition. -/
theorem step_requires_reset_witness :
    stepF constPersons (initState false 0) 0 = .error .emptyStats ∧
    (rS.final_pan_error ≠ [] ∧ rS.final_tilt_error ≠ []) ∧
    (rS.final_pan_error ≠ [] ↔ 0 < resetCount [Event.reset 0 2 6]) :=
  ⟨(step_requires_reset constPersons).1 false 0 0 (by norm_num),
   (step_requires_reset constPersons).2.1 rS 0 wOut stepW_eval,
   (step_requires_reset constPersons).2.2 false 0 [Event.reset 0 2 6] rS execW_eval⟩

/-- C10: `step` draws no random value — run with any two generator states on
identical environment states and the same action, it returns identical
result tuples and passes each generator through unchanged. -/
theorem step_deterministic (p : Persons) (g g' : RNG) (s s' : EnvState) (a : ℕ)
    (h : s = s') :
    (stepR p g s a).1 = (stepR p g' s' a).1 ∧
    (stepR p g s a).2 = g ∧ (stepR p g' s' a).2 = g' := by
  subst h
  exact ⟨rfl, rfl, rfl⟩

/-- C10 (witness): determinism of `step` at the concrete state `rS` under
two different generator states. -/
theorem step_deterministic_witness :
    (stepR constPersons ⟨fun _ => 0, 0⟩ rS 0).1 = (stepR constPersons ⟨fun n => n, 5⟩ rS 0).1 ∧
    (stepR constPersons ⟨fun _ => 0, 0⟩ rS 0).2 = ⟨fun _ => 0, 0⟩ ∧
    (stepR constPersons ⟨fun n => n, 5⟩ rS 0).2 = ⟨fun n => n, 5⟩ :=
  step_deterministic constPersons ⟨fun _ => 0, 0⟩ ⟨fun n => n, 5⟩ rS rS 0 rfl

end CameraEnv
